import Mathlib

/-!
# Verification of the multi-stream ingestion transaction coordinator

Shallow embedding of `src/ingestion-service/transaction_manager.py` and the
per-record batch driver `process_pattern` of `src/ingestion-service/main.py`.

Modelling conventions:
* A Python dict carrying a staged payload is an association list
  `List (String × String)`; the empty list models a falsy (`{}`) dict.
* `stream_results` (a Python dict, insertion ordered) is an association list
  with Python dict assignment semantics (`dictSet`): updating an existing key
  keeps its position, a new key is appended.
* Exceptions are `Except String`: `.error msg` is a raised exception carrying
  `str(e)`.  A function that cannot raise returns a plain value.
* The three external stream processors are modelled by their outcomes: the
  result of `processor.prepare` for this transaction's call, and the outcome
  of `commit`/`rollback` as a function of the staged payload passed in.
* Filesystem effects on the staging directory are modelled by the boolean
  `staging_exists` (`_ensure_staging_dir` sets it, `_cleanup_staging` clears
  it); checkpoint writes (`save_state`) are recorded as trace events.
* Every call a transaction makes into a stream processor is recorded in an
  event trace, so ordering claims (commit order, reverse rollback order)
  are statements about the trace.
-/

namespace Engen

/-- A staged payload: the dict returned by a processor's `prepare`.
The empty list corresponds to a falsy Python dict. -/
abbrev Data := List (String × String)

/-- `StreamResult` from transaction_manager.py (the `timestamp` field, a
wall-clock string used only for logging, is omitted). -/
structure StreamResult where
  stream_name : String
  status : String
  data : Data := []
  error : Option String := none
deriving Repr, DecidableEq

/-- `TransactionState` from transaction_manager.py.  `staging_dir : Path` is
modelled by `staging_exists`, whether the staging directory currently exists;
`start_time` (logging only) is omitted. -/
structure TransactionState where
  pattern_id : String
  pattern_title : String
  staging_exists : Bool := false
  stream_results : List (String × StreamResult) := []
  phase : String := "init"
  error : Option String := none
deriving Repr, DecidableEq

/-- Python dict lookup `d[k]` (as an `Option`; `none` is a `KeyError`). -/
def dictGet : List (String × α) → String → Option α
  | [], _ => none
  | (k, v) :: l, k' => if k' = k then some v else dictGet l k'

/-- Python dict assignment `d[k] = v`: replace in place if the key exists,
append otherwise. -/
def dictSet : List (String × α) → String → α → List (String × α)
  | [], k, v => [(k, v)]
  | (k₁, v₁) :: l, k, v =>
      if k = k₁ then (k₁, v) :: l else (k₁, v₁) :: dictSet l k v

/-- `self.state.stream_results[name].status = s` (no-op on a missing key;
call sites guard the lookup first). -/
def setStatus : List (String × StreamResult) → String → String → List (String × StreamResult)
  | [], _, _ => []
  | (k₁, r) :: l, k, s =>
      if k = k₁ then (k₁, { r with status := s }) :: l else (k₁, r) :: setStatus l k s

/-- Setting both `.status` and `.error` of the entry at a key
(the failure branch of `_commit_stream`). -/
def setStatusError : List (String × StreamResult) → String → String → String → List (String × StreamResult)
  | [], _, _, _ => []
  | (k₁, r) :: l, k, s, e =>
      if k = k₁ then (k₁, { r with status := s, error := some e }) :: l
      else (k₁, r) :: setStatusError l k s e

/-- The behaviour of one external stream processor on this transaction's
calls: the outcome of its `prepare`, and of `commit`/`rollback` as a function
of the staged payload. -/
structure Processor where
  prepare : Except String Data
  commit : Data → Except String Unit
  rollback : Data → Except String Unit

/-- The processor dict `{'A': proc_a, 'B': proc_b, 'C': proc_c}` built in
main.py. -/
structure Procs where
  A : Processor
  B : Processor
  C : Processor

/-- `processors[stream_name]` for a dynamically chosen key (used by
`rollback`); `none` is a `KeyError`. -/
def Procs.lookup (ps : Procs) (name : String) : Option Processor :=
  if name = "A" then some ps.A
  else if name = "B" then some ps.B
  else if name = "C" then some ps.C
  else none

/-- Observable events: calls into stream processors and checkpoint writes. -/
inductive Event where
  | prepareCall (stream : String)
  | commitCall (stream : String) (data : Data)
  | rollbackCall (stream : String) (data : Data)
  | saveState
deriving Repr, DecidableEq

/-- The rollback calls of a trace, with their payloads, in order. -/
def rollbackCalls (tr : List Event) : List (String × Data) :=
  tr.filterMap fun e =>
    match e with
    | .rollbackCall s d => some (s, d)
    | _ => none

/-- The commit calls of a trace, with their payloads, in order. -/
def commitCalls (tr : List Event) : List (String × Data) :=
  tr.filterMap fun e =>
    match e with
    | .commitCall s d => some (s, d)
    | _ => none

/-- Number of checkpoint writes (`save_state` calls) in a trace. -/
def saveCount (tr : List Event) : Nat :=
  (tr.filter fun e =>
    match e with
    | .saveState => true
    | _ => false).length

namespace IngestionTransaction

/-- `IngestionTransaction.__init__`: fresh state; the staging directory is
not created yet. -/
def init (pattern_id pattern_title : String) : TransactionState :=
  { pattern_id := pattern_id, pattern_title := pattern_title }

/-- `_prepare_stream`: call the processor's `prepare`; on success record a
`'prepared'` `StreamResult` holding the returned payload and return `True`;
on an exception re-raise (the raised exception is the value `asyncio.gather`
collects for this stream). -/
def prepareStream (p : Processor) (stream_name : String) (st : TransactionState) :
    Except String Bool × TransactionState × List Event :=
  match p.prepare with
  | .ok result =>
      (.ok true,
       { st with stream_results :=
          (dictSet st.stream_results stream_name
            { stream_name := stream_name, status := "prepared", data := result }) },
       [.prepareCall stream_name])
  | .error e => (.error e, st, [.prepareCall stream_name])

/-- One iteration of the result-checking loop of `prepare` (body of
`for i, result in enumerate(results)`): an exception records a `'failed'`
result with the exception message; a falsy value records a `'failed'` result
with `"Stream {name} returned False"`; a truthy value records nothing. -/
def recordPrepareResult (stream_name : String) (res : Except String Bool)
    (acc : TransactionState × List String) : TransactionState × List String :=
  match res with
  | .error e =>
      ({ acc.1 with stream_results :=
          (dictSet acc.1.stream_results stream_name
            { stream_name := stream_name, status := "failed", error := some e }) },
       acc.2 ++ [stream_name])
  | .ok r =>
      if r then acc
      else
        ({ acc.1 with stream_results :=
            (dictSet acc.1.stream_results stream_name
              { stream_name := stream_name, status := "failed",
                error := some ("Stream " ++ stream_name ++ " returned False") }) },
         acc.2 ++ [stream_name])

/-- Phase 1, `IngestionTransaction.prepare`.  `asyncio.gather` fans out the
three `_prepare_stream` coroutines with `return_exceptions=True`, so all
three run to completion whatever the individual outcomes; since each writes
only its own key of `stream_results`, the deterministic A-then-B-then-C
schedule modelled here produces the dict contents of every admissible
interleaving.  The surrounding `try/except` of the source is dead code here:
`gather(..., return_exceptions=True)` does not raise and the processor dict
always carries keys A, B, C. -/
def prepare (ps : Procs) (st : TransactionState) :
    Bool × TransactionState × List Event :=
  let st₀ := { st with phase := "preparing", staging_exists := true }
  let pA := prepareStream ps.A "A" st₀
  let pB := prepareStream ps.B "B" pA.2.1
  let pC := prepareStream ps.C "C" pB.2.1
  let tr := pA.2.2 ++ pB.2.2 ++ pC.2.2
  let acc := recordPrepareResult "C" pC.1
      (recordPrepareResult "B" pB.1 (recordPrepareResult "A" pA.1 (pC.2.1, [])))
  let st₁ := acc.1
  let failures := acc.2
  if failures.isEmpty then
    (true, { st₁ with phase := "prepared" }, tr)
  else
    (false,
     { st₁ with
        phase := "failed",
        error := some ("Streams " ++ String.intercalate ", " failures ++ " failed during preparation"),
        staging_exists := false },
     tr)

/-- One iteration of the compensation loop of `rollback`
(`for stream_name in reversed(committed_streams)`).  The `try` covers the
processor lookup, the `stream_results` lookup and the `rollback` call, so a
`KeyError` on either lookup, like an exception from the processor, is logged
and the loop continues; only a successful rollback updates the stream's
status to `'rolled_back'`. -/
def rollbackStep (ps : Procs) (acc : TransactionState × List Event) (stream_name : String) :
    TransactionState × List Event :=
  match ps.lookup stream_name, dictGet acc.1.stream_results stream_name with
  | some p, some r =>
      let tr := acc.2 ++ [Event.rollbackCall stream_name r.data]
      match p.rollback r.data with
      | .ok _ =>
          ({ acc.1 with stream_results := setStatus acc.1.stream_results stream_name "rolled_back" },
           tr)
      | .error _ => (acc.1, tr)
  | _, _ => acc

/-- `IngestionTransaction.rollback`: best-effort compensation.  When the
caller supplies no committed list, it is derived from `stream_results`
entries whose status is `'committed'`; the compensation loop walks the list
in reverse and swallows every per-stream exception; the phase ends at
`'rolled_back'` and the staging directory is removed regardless.  The
embedding is a total function: rollback never propagates an exception. -/
def rollback (ps : Procs) (st : TransactionState)
    (committed_streams : Option (List String)) : TransactionState × List Event :=
  let st₀ := { st with phase := "rolling_back" }
  let committed :=
    match committed_streams with
    | some l => l
    | none =>
        (st₀.stream_results.filter
          (fun (p : String × StreamResult) => p.2.status == "committed")).map Prod.fst
  let res := committed.reverse.foldl (rollbackStep ps) (st₀, [])
  ({ res.1 with phase := "rolled_back", staging_exists := false }, res.2)

/-- `_commit_stream`: look up the staged payload, call the processor's
`commit`; on success set the stream's status to `'committed'` and return
`True`; on an exception set status `'failed'` with the message and re-raise.
A missing `stream_results` key is a `KeyError` raised before the processor
is called (and again inside the handler), so it propagates with no
`commitCall` event. -/
def commitStream (p : Processor) (stream_name : String) (st : TransactionState) :
    Except String Bool × TransactionState × List Event :=
  match dictGet st.stream_results stream_name with
  | none => (.error ("KeyError: " ++ stream_name), st, [])
  | some r =>
      match p.commit r.data with
      | .ok _ =>
          (.ok true,
           { st with stream_results := setStatus st.stream_results stream_name "committed" },
           [.commitCall stream_name r.data])
      | .error e =>
          (.error e,
           { st with stream_results := setStatusError st.stream_results stream_name "failed" e },
           [.commitCall stream_name r.data])

/-- The `except` branch of `commit`: record the error, compensate the
streams committed so far, return `False`. -/
def commitFailure (ps : Procs) (st : TransactionState) (committed : List String)
    (e : String) : Except String Bool × TransactionState × List Event :=
  let st₁ := { st with error := some ("Commit failed: " ++ e) }
  let res := rollback ps st₁ (some committed)
  (.ok false, res.1, res.2)

/-- Phase 2, `IngestionTransaction.commit`: sequential commits in the fixed
order A, B, C.  A phase other than `'prepared'` raises a `RuntimeError`
(`.error` result) before any stream is touched.  A failed step triggers
`rollback` on the streams committed so far and the method returns `False`
(the source's `else: raise Exception(...)` branches after each
`_commit_stream` call are unreachable, `_commit_stream` never returns a
falsy value, but are embedded faithfully). -/
def commit (ps : Procs) (st : TransactionState) :
    Except String Bool × TransactionState × List Event :=
  if st.phase ≠ "prepared" then
    (.error ("Cannot commit: transaction in phase \x27" ++ st.phase ++ "\x27"), st, [])
  else
    let st₀ := { st with phase := "committing" }
    match commitStream ps.A "A" st₀ with
    | (.error e, st', trA) =>
        let res := commitFailure ps st' [] e
        (res.1, res.2.1, trA ++ res.2.2)
    | (.ok bA, stA, trA) =>
      if !bA then
        let res := commitFailure ps stA [] "Stream A commit failed"
        (res.1, res.2.1, trA ++ res.2.2)
      else
        match commitStream ps.B "B" stA with
        | (.error e, st', trB) =>
            let res := commitFailure ps st' ["A"] e
            (res.1, res.2.1, trA ++ trB ++ res.2.2)
        | (.ok bB, stB, trB) =>
          if !bB then
            let res := commitFailure ps stB ["A"] "Stream B commit failed"
            (res.1, res.2.1, trA ++ trB ++ res.2.2)
          else
            match commitStream ps.C "C" stB with
            | (.error e, st', trC) =>
                let res := commitFailure ps st' ["A", "B"] e
                (res.1, res.2.1, trA ++ trB ++ trC ++ res.2.2)
            | (.ok bC, stC, trC) =>
              if !bC then
                let res := commitFailure ps stC ["A", "B"] "Stream C commit failed"
                (res.1, res.2.1, trA ++ trB ++ trC ++ res.2.2)
              else
                (.ok true,
                 { stC with phase := "committed", staging_exists := false },
                 trA ++ trB ++ trC)

end IngestionTransaction

/-- A Python `set` of pattern ids, as a duplicate-free list (`add`). -/
def setInsert (s : List String) (x : String) : List String :=
  if x ∈ s then s else s ++ [x]

/-- The fields `_load_completed` reads from one parsed checkpoint JSON:
`state.get('phase')` (`none` when the key is absent) and
`state['pattern_id']` (`none` raises a `KeyError`). -/
structure CheckpointState where
  pattern_id : Option String := none
  phase : Option String := none
deriving Repr, DecidableEq

namespace TransactionCoordinator

/-- One iteration of `_load_completed` over a checkpoint file: `none` is a
file whose open/parse raised (skipped with a warning); a parsed state adds
its `pattern_id` when the phase is `'committed'`; a `KeyError` on a missing
`pattern_id` is caught by the same `try` and the file is skipped. -/
def loadCompletedStep (completed : List String) (file : Option CheckpointState) :
    List String :=
  match file with
  | none => completed
  | some state =>
      if state.phase == some "committed" then
        match state.pattern_id with
        | some pid => setInsert completed pid
        | none => completed
      else completed

/-- `TransactionCoordinator._load_completed`: scan every checkpoint file and
collect the ids whose persisted phase is `'committed'`. -/
def loadCompleted (files : List (Option CheckpointState)) : List String :=
  files.foldl loadCompletedStep []

/-- `TransactionCoordinator.execute_transaction`: prepare, checkpoint,
commit, checkpoint.  Returns the outcome, the updated `completed_patterns`
set and the final transaction state; `save_state` calls appear in the trace
as `Event.saveState`.  The surrounding `try/except` returns `False` on the
`RuntimeError` `commit` can raise. -/
def execute_transaction (completed : List String) (st : TransactionState)
    (ps : Procs) : Bool × List String × TransactionState × List Event :=
  let p := IngestionTransaction.prepare ps st
  if !p.1 then (false, completed, p.2.1, p.2.2)
  else
    let tr₁ := p.2.2 ++ [Event.saveState]
    match IngestionTransaction.commit ps p.2.1 with
    | (.error _, st', tr₂) => (false, completed, st', tr₁ ++ tr₂)
    | (.ok ok₂, st', tr₂) =>
        if !ok₂ then (false, completed, st', tr₁ ++ tr₂)
        else
          (true, setInsert completed st'.pattern_id, st', tr₁ ++ tr₂ ++ [Event.saveState])

end TransactionCoordinator

/-- A pattern descriptor from the catalog, with the fields `process_pattern`
reads (`pat['id']`, `pat['title']`, `pat.get('page_url')`,
`pat.get('content_hash')`). -/
structure Pat where
  id : String
  title : String
  page_url : Option String := none
  content_hash : Option String := none
deriving Repr, DecidableEq

/-- `process_pattern` from main.py (the per-record body run under the
semaphore).  External collaborators are passed as their outcomes: the result
of `sp_client.fetch_page_html` (`.error` = the call raised) and the content
hash function (`hashlib`).  Returns the outcome string (`'success'`,
`'skip'`, `'fail'`), the updated completed set, the final transaction state
(`none` when no `IngestionTransaction` was constructed) and the event trace.
A falsy `page_url` (absent key or empty string) and empty fetched HTML are
skips; a fetch exception returns `'fail'`; the content-hash drift check only
logs and never blocks. -/
def process_pattern (completed : List String) (pat : Pat)
    (fetch_page_html : Except String String) (hashFn : String → String)
    (ps : Procs) : String × List String × Option TransactionState × List Event :=
  if pat.id ∈ completed then ("skip", completed, none, [])
  else
    match pat.page_url with
    | none => ("skip", completed, none, [])
    | some url =>
      if url = "" then ("skip", completed, none, [])
      else
        match fetch_page_html with
        | .error _ => ("fail", completed, none, [])
        | .ok html =>
          if html = "" then ("skip", completed, none, [])
          else
            let pat₁ := { pat with content_hash := some (hashFn html) }
            let txn := IngestionTransaction.init pat₁.id pat₁.title
            let res := TransactionCoordinator.execute_transaction completed txn ps
            ((if res.1 then "success" else "fail"), res.2.1, some res.2.2.1, res.2.2.2)

/-- Python `int(...)` on a plain decimal string (`none` = `ValueError`). -/
def parseNat (s : String) : Option Nat :=
  if s.toList ≠ [] ∧ s.toList.all Char.isDigit then
    some (s.toList.foldl (fun n c => n * 10 + (c.toNat - 48)) 0)
  else none

/-- `int(os.getenv("INGEST_CONCURRENCY", "4"))` from main.py: the env value
(or the default string `"4"`) parsed as a number. -/
def ingestConcurrency (env : Option String) : Option Nat :=
  parseNat (env.getD "4")

/-- Where one batch task is relative to its semaphore slot: not yet started,
inside the `async with sem:` body (the prepare/commit window), or finished
with its terminal outcome. -/
inductive TaskPhase where
  | notStarted
  | inWindow
  | finished
deriving Repr, DecidableEq

/-- The shared scheduling state of the batch: available semaphore slots and
the per-task positions. -/
structure SchedState where
  sem : Nat
  tasks : List TaskPhase
deriving Repr, DecidableEq

/-- Number of tasks currently inside the prepare/commit window. -/
def countInWindow (tasks : List TaskPhase) : Nat :=
  (tasks.filter (· == TaskPhase.inWindow)).length

/-- The batch start: `asyncio.Semaphore(concurrency)` full, `m` tasks
created by `asyncio.gather`, none yet inside its `async with sem:` body. -/
def initSched (n m : Nat) : SchedState :=
  { sem := n, tasks := List.replicate m TaskPhase.notStarted }

/-- The semaphore steps of main.py's batch loop: a task may enter its
`async with sem:` body only when a slot is free (taking it), and gives the
slot back only when its body finishes with a terminal outcome.  No other
operation touches the semaphore. -/
inductive SchedStep : SchedState → SchedState → Prop where
  | acquire (s : SchedState) (i : Nat)
      (h : s.tasks.get? i = some TaskPhase.notStarted) (hs : 0 < s.sem) :
      SchedStep s { sem := s.sem - 1, tasks := s.tasks.set i TaskPhase.inWindow }
  | release (s : SchedState) (i : Nat)
      (h : s.tasks.get? i = some TaskPhase.inWindow) :
      SchedStep s { sem := s.sem + 1, tasks := s.tasks.set i TaskPhase.finished }

/-- States the batch scheduler can reach from the start with limit `n` and
`m` tasks. -/
inductive SchedReachable (n m : Nat) : SchedState → Prop where
  | init : SchedReachable n m (initSched n m)
  | step {s s' : SchedState} :
      SchedReachable n m s → SchedStep s s' → SchedReachable n m s'

/-- The `failures` list accumulated by the result-checking loop of
`prepare`, as a function of the processor outcomes: the names of the
streams whose `_prepare_stream` raised, in loop order A, B, C. -/
def prepFailures (ps : Procs) : List String :=
  (match ps.A.prepare with
   | .error _ => ["A"]
   | .ok _ => ([] : List String)) ++
  (match ps.B.prepare with
   | .error _ => ["B"]
   | .ok _ => ([] : List String)) ++
  (match ps.C.prepare with
   | .error _ => ["C"]
   | .ok _ => ([] : List String))

/-! Concrete processors, payloads and states used to instantiate the
theorems below on executable inputs. -/

/-- A processor whose every call succeeds; its `prepare` stages `d`. -/
def okProc (d : Data) : Processor :=
  ⟨.ok d, fun _ => .ok (), fun _ => .ok ()⟩

/-- A processor whose `prepare` raises `e`. -/
def prepErrProc (e : String) : Processor :=
  ⟨.error e, fun _ => .ok (), fun _ => .ok ()⟩

/-- A processor staging `d` whose `commit` raises `e`. -/
def commitErrProc (d : Data) (e : String) : Processor :=
  ⟨.ok d, fun _ => .error e, fun _ => .ok ()⟩

/-- A processor staging `d` whose `rollback` raises `e`. -/
def rbErrProc (d : Data) (e : String) : Processor :=
  ⟨.ok d, fun _ => .ok (), fun _ => .error e⟩

def dA0 : Data := [("semantic_doc", "a")]

def dB0 : Data := [("vector_points", "b")]

def dC0 : Data := [("content_row", "c")]

def rA0 : StreamResult := ⟨"A", "prepared", dA0, none⟩

def rB0 : StreamResult := ⟨"B", "prepared", dB0, none⟩

def rC0 : StreamResult := ⟨"C", "prepared", dC0, none⟩

def txn0 : TransactionState := IngestionTransaction.init "p1" "Pattern One"

def psOk0 : Procs := ⟨okProc dA0, okProc dB0, okProc dC0⟩

def psPrepFail0 : Procs := ⟨prepErrProc "boom", okProc dB0, okProc dC0⟩

/-- Stream A's `prepare` returns a falsy (empty) dict; B and C succeed. -/
def psFalsy0 : Procs := ⟨okProc [], okProc dB0, okProc dC0⟩

def psCommitFailC0 : Procs := ⟨okProc dA0, okProc dB0, commitErrProc dC0 "quota"⟩

def psCommitFailA0 : Procs := ⟨commitErrProc dA0 "denied", okProc dB0, okProc dC0⟩

/-- B's rollback raises while A and C roll back cleanly. -/
def psRbFailB0 : Procs := ⟨okProc dA0, rbErrProc dB0 "rbfail", okProc dC0⟩

/-- The transaction state reached by a fully successful prepare. -/
def stPrepared0 : TransactionState := (IngestionTransaction.prepare psOk0 txn0).2.1

/-- A mid-commit state: A and B committed, C not yet. -/
def stCommitted2 : TransactionState :=
  { pattern_id := "p1", pattern_title := "Pattern One", staging_exists := true,
    stream_results := [("A", ⟨"A", "committed", dA0, none⟩), ("B", ⟨"B", "committed", dB0, none⟩)],
    phase := "committing", error := none }

/-- A checkpoint directory: one committed record, one unreadable file, one
record that only reached `'prepared'`, one committed record whose JSON lacks
`pattern_id`. -/
def files0 : List (Option CheckpointState) :=
  [some ⟨some "p1", some "committed"⟩, none,
   some ⟨some "p2", some "prepared"⟩, some ⟨none, some "committed"⟩]

def patNoUrl0 : Pat := ⟨"p3", "Pattern Three", none, none⟩

def patUrl0 : Pat := ⟨"p4", "Pattern Four", some "https://sp.example/page", none⟩

/-- A concrete stand-in for the content hash function. -/
def idHash : String → String := fun s => s

open IngestionTransaction TransactionCoordinator

/-! Helper lemmas. -/

theorem dictGet_setStatus (l : List (String × StreamResult)) (k s n : String) :
    dictGet (setStatus l k s) n =
      if n = k then (dictGet l n).map (fun r => { r with status := s }) else dictGet l n := by
  induction l with
  | nil => simp [setStatus, dictGet]
  | cons p t ih =>
    obtain ⟨k₁, r⟩ := p
    by_cases h1 : k = k₁
    · subst h1
      by_cases h2 : n = k <;> simp [setStatus, dictGet, h2]
    · by_cases h2 : n = k₁
      · subst h2
        simp [setStatus, dictGet, h1, Ne.symm h1]
      · simp [setStatus, dictGet, h1, h2, ih]

theorem isSome_dictGet_setStatus (l : List (String × StreamResult)) (k s n : String) :
    (dictGet (setStatus l k s) n).isSome = (dictGet l n).isSome := by
  rw [dictGet_setStatus]; split
  · cases dictGet l n <;> simp
  · rfl

theorem eventMap_setStatus (l : List (String × StreamResult)) (k s n : String) :
    (dictGet (setStatus l k s) n).map (fun r => Event.rollbackCall n r.data)
      = (dictGet l n).map (fun r => Event.rollbackCall n r.data) := by
  rw [dictGet_setStatus]; split
  · cases dictGet l n <;> simp
  · rfl

/-- The compensation loop visits every stream of `names`, appending one
`rollbackCall` event per stream carrying the payload recorded in
`stream_results`, regardless of the individual rollback outcomes. -/
theorem foldl_rollbackStep_trace (ps : Procs) (names : List String) :
    ∀ (st : TransactionState) (tr : List Event),
    (∀ n ∈ names, (ps.lookup n).isSome) →
    (∀ n ∈ names, (dictGet st.stream_results n).isSome) →
    (names.foldl (rollbackStep ps) (st, tr)).2 =
      tr ++ names.filterMap
        (fun n => (dictGet st.stream_results n).map (fun r => Event.rollbackCall n r.data)) := by
  induction names with
  | nil => intro st tr _ _; simp
  | cons n rest ih =>
    intro st tr hp hd
    obtain ⟨p, hpn⟩ := Option.isSome_iff_exists.mp (hp n (List.mem_cons_self n rest))
    obtain ⟨r, hrn⟩ := Option.isSome_iff_exists.mp (hd n (List.mem_cons_self n rest))
    have hstep : rollbackStep ps (st, tr) n =
        match p.rollback r.data with
        | .ok _ => ({ st with stream_results := setStatus st.stream_results n "rolled_back" },
            tr ++ [Event.rollbackCall n r.data])
        | .error _ => (st, tr ++ [Event.rollbackCall n r.data]) := by
      simp [rollbackStep, hpn, hrn]
    rcases hr : p.rollback r.data with v | v
    · rw [List.foldl_cons, hstep, hr]
      rw [ih st (tr ++ [Event.rollbackCall n r.data])
        (fun m hm => hp m (List.mem_cons_of_mem n hm))
        (fun m hm => hd m (List.mem_cons_of_mem n hm))]
      simp [List.filterMap_cons, hrn]
    · rw [List.foldl_cons, hstep, hr]
      rw [ih _ (tr ++ [Event.rollbackCall n r.data])
        (fun m hm => hp m (List.mem_cons_of_mem n hm))
        (fun m hm => by
          simp only [isSome_dictGet_setStatus]
          exact hd m (List.mem_cons_of_mem n hm))]
      rw [List.filterMap_congr (fun m _ => eventMap_setStatus st.stream_results n "rolled_back" m)]
      simp [List.filterMap_cons, hrn]

theorem mem_setInsert (s : List String) (x pid : String) :
    pid ∈ setInsert s x ↔ pid ∈ s ∨ pid = x := by
  simp only [setInsert]
  split
  · next h =>
      constructor
      · exact Or.inl
      · rintro (h1 | rfl)
        · exact h1
        · exact h
  · simp

theorem mem_loadCompletedStep (acc : List String) (file : Option CheckpointState) (pid : String) :
    pid ∈ loadCompletedStep acc file ↔
      pid ∈ acc ∨ ∃ cs : CheckpointState,
        file = some cs ∧ cs.phase = some "committed" ∧ cs.pattern_id = some pid := by
  rcases file with _ | state
  · simp [loadCompletedStep]
  · simp only [loadCompletedStep, Option.some.injEq]
    by_cases hph : state.phase = some "committed"
    · rcases hpi : state.pattern_id with _ | q
      · simp only [hph, beq_self_eq_true, if_true, hpi]
        constructor
        · exact Or.inl
        · rintro (h | ⟨cs, rfl, _, h3⟩)
          · exact h
          · rw [hpi] at h3; cases h3
      · simp only [hph, beq_self_eq_true, if_true, hpi, mem_setInsert]
        constructor
        · rintro (h | rfl)
          · exact Or.inl h
          · exact Or.inr ⟨state, rfl, hph, hpi⟩
        · rintro (h | ⟨cs, rfl, _, h3⟩)
          · exact Or.inl h
          · rw [hpi] at h3
            injection h3 with h3
            exact Or.inr h3.symm
    · have hb : (state.phase == some "committed") = false := by
        simp [hph]
      simp only [hb, if_false]
      constructor
      · exact Or.inl
      · rintro (h | ⟨cs, rfl, h2, _⟩)
        · exact h
        · exact absurd h2 hph

theorem mem_foldl_loadCompletedStep (files : List (Option CheckpointState)) :
    ∀ (acc : List String) (pid : String),
    pid ∈ files.foldl loadCompletedStep acc ↔
      pid ∈ acc ∨ ∃ cs : CheckpointState,
        some cs ∈ files ∧ cs.phase = some "committed" ∧ cs.pattern_id = some pid := by
  induction files with
  | nil => simp
  | cons f rest ih =>
    intro acc pid
    rw [List.foldl_cons, ih, mem_loadCompletedStep]
    simp only [List.mem_cons]
    constructor
    · rintro ((h | ⟨cs, rfl, h2, h3⟩) | ⟨cs, h1, h2, h3⟩)
      · exact Or.inl h
      · exact Or.inr ⟨cs, Or.inl rfl, h2, h3⟩
      · exact Or.inr ⟨cs, Or.inr h1, h2, h3⟩
    · rintro (h | ⟨cs, (h1 | h1), h2, h3⟩)
      · exact Or.inl (Or.inl h)
      · exact Or.inl (Or.inr ⟨cs, h1.symm, h2, h3⟩)
      · exact Or.inr ⟨cs, h1, h2, h3⟩

theorem countInWindow_cons (x : TaskPhase) (t : List TaskPhase) :
    countInWindow (x :: t) = (if x = TaskPhase.inWindow then 1 else 0) + countInWindow t := by
  cases x <;> simp [countInWindow, List.filter_cons]
  omega

theorem countInWindow_set (l : List TaskPhase) :
    ∀ (i : Nat) (a b : TaskPhase), l.get? i = some b →
    countInWindow (l.set i a) + (if b = TaskPhase.inWindow then 1 else 0)
      = countInWindow l + (if a = TaskPhase.inWindow then 1 else 0) := by
  induction l with
  | nil => intro i a b h; simp at h
  | cons x t ih =>
    intro i a b h
    cases i with
    | zero =>
      simp only [List.get?] at h
      injection h with h; subst h
      simp only [List.set, countInWindow_cons]
      omega
    | succ j =>
      simp only [List.get?] at h
      simp only [List.set, countInWindow_cons]
      have := ih j a b h
      omega

theorem countInWindow_replicate (m : Nat) :
    countInWindow (List.replicate m TaskPhase.notStarted) = 0 := by
  induction m with
  | zero => rfl
  | succ k ih => simp [List.replicate, countInWindow_cons, ih]

/-- The semaphore invariant: tasks inside the window plus available slots
always make up the configured limit. -/
theorem sched_invariant (n m : Nat) (s : SchedState) (h : SchedReachable n m s) :
    countInWindow s.tasks + s.sem = n := by
  induction h with
  | init => simp [initSched, countInWindow_replicate]
  | step _ hs ih =>
    cases hs with
    | acquire i hi hsem =>
      have := countInWindow_set _ i TaskPhase.inWindow TaskPhase.notStarted hi
      simp at this ⊢
      omega
    | release i hi =>
      have := countInWindow_set _ i TaskPhase.finished TaskPhase.inWindow hi
      simp at this ⊢
      omega

/-- A fully successful prepare, explicitly. -/
theorem prepare_all_ok_eq (ps : Procs) (st : TransactionState) (dA dB dC : Data)
    (hst : st.stream_results = [])
    (hA : ps.A.prepare = .ok dA) (hB : ps.B.prepare = .ok dB) (hC : ps.C.prepare = .ok dC) :
    prepare ps st =
      (true,
       { st with
          phase := "prepared",
          staging_exists := true,
          stream_results := [("A", ⟨"A", "prepared", dA, none⟩),
            ("B", ⟨"B", "prepared", dB, none⟩), ("C", ⟨"C", "prepared", dC, none⟩)] },
       [.prepareCall "A", .prepareCall "B", .prepareCall "C"]) := by
  simp [prepare, prepareStream, recordPrepareResult, dictSet, hst, hA, hB, hC]

/-- A prepare with at least one raising stream fails. -/
theorem prepare_result_false_of_error (ps : Procs) (st : TransactionState) (e : String)
    (hst : st.stream_results = [])
    (h : ps.A.prepare = .error e ∨ ps.B.prepare = .error e ∨ ps.C.prepare = .error e) :
    (prepare ps st).1 = false ∧
    (prepare ps st).2.1.phase = "failed" ∧
    (prepare ps st).2.1.staging_exists = false := by
  rcases h with h | h | h
  · cases hB : ps.B.prepare <;> cases hC : ps.C.prepare <;>
      simp [prepare, prepareStream, recordPrepareResult, dictGet, dictSet, hst, h, hB, hC]
  · cases hA : ps.A.prepare <;> cases hC : ps.C.prepare <;>
      simp [prepare, prepareStream, recordPrepareResult, dictGet, dictSet, hst, h, hA, hC]
  · cases hA : ps.A.prepare <;> cases hB : ps.B.prepare <;>
      simp [prepare, prepareStream, recordPrepareResult, dictGet, dictSet, hst, h, hA, hB]

/-- Whatever the processor outcomes, prepare always calls all three stream
preparations, A then B then C. -/
theorem prepare_trace_always (ps : Procs) (st : TransactionState) :
    (prepare ps st).2.2 = [.prepareCall "A", .prepareCall "B", .prepareCall "C"] := by
  cases hA : ps.A.prepare <;> cases hB : ps.B.prepare <;> cases hC : ps.C.prepare <;>
    simp [prepare, prepareStream, recordPrepareResult, hA, hB, hC]

theorem saveCount_append (a b : List Event) :
    saveCount (a ++ b) = saveCount a + saveCount b := by
  simp [saveCount, List.filter_append]

/-! Claim theorems. -/

/-- C1: for every transaction in phase `'prepared'` (its three stream
results staged), `commit` runs the three stream commits sequentially in the
fixed order A then B then C; if a step raises, rollback is invoked on
exactly the streams committed before the failing step, in exact reverse
commit order, never on the failing stream itself, `commit` returns `False`
and the phase ends at `'rolled_back'` with staging cleaned; if all three
commit, the phase becomes `'committed'`, staging is cleaned up and `commit`
returns `True`.  The event traces state the order of every processor call. -/
theorem commit_sequential_and_compensates (ps : Procs) (st : TransactionState)
    (rA rB rC : StreamResult)
    (hph : st.phase = "prepared")
    (hsr : st.stream_results = [("A", rA), ("B", rB), ("C", rC)]) :
    (ps.A.commit rA.data = .ok () → ps.B.commit rB.data = .ok () →
     ps.C.commit rC.data = .ok () →
      (commit ps st).1 = .ok true ∧
      (commit ps st).2.1.phase = "committed" ∧
      (commit ps st).2.1.staging_exists = false ∧
      (commit ps st).2.2 = [.commitCall "A" rA.data, .commitCall "B" rB.data,
        .commitCall "C" rC.data]) ∧
    (∀ e, ps.A.commit rA.data = .error e →
      (commit ps st).1 = .ok false ∧
      (commit ps st).2.1.phase = "rolled_back" ∧
      (commit ps st).2.1.staging_exists = false ∧
      (commit ps st).2.2 = [.commitCall "A" rA.data]) ∧
    (∀ e, ps.A.commit rA.data = .ok () → ps.B.commit rB.data = .error e →
      (commit ps st).1 = .ok false ∧
      (commit ps st).2.1.phase = "rolled_back" ∧
      (commit ps st).2.1.staging_exists = false ∧
      (commit ps st).2.2 = [.commitCall "A" rA.data, .commitCall "B" rB.data,
        .rollbackCall "A" rA.data]) ∧
    (∀ e, ps.A.commit rA.data = .ok () → ps.B.commit rB.data = .ok () →
     ps.C.commit rC.data = .error e →
      (commit ps st).1 = .ok false ∧
      (commit ps st).2.1.phase = "rolled_back" ∧
      (commit ps st).2.1.staging_exists = false ∧
      (commit ps st).2.2 = [.commitCall "A" rA.data, .commitCall "B" rB.data,
        .commitCall "C" rC.data, .rollbackCall "B" rB.data, .rollbackCall "A" rA.data]) := by
  refine ⟨fun hA hB hC => ?_, fun e hA => ?_, fun e hA hB => ?_, fun e hA hB hC => ?_⟩
  · simp [commit, commitStream, dictGet, setStatus, hph, hsr, hA, hB, hC]
  · simp [commit, commitStream, commitFailure, rollback, rollbackStep, Procs.lookup,
      dictGet, setStatus, setStatusError, hph, hsr, hA]
  · simp [commit, commitStream, commitFailure, rollback, rollbackStep, Procs.lookup,
      dictGet, setStatus, setStatusError, hph, hsr, hA, hB]
    rcases h1 : ps.A.rollback rA.data with v | v <;>
      simp [dictGet, setStatus, h1]
  · simp [commit, commitStream, commitFailure, rollback, rollbackStep, Procs.lookup,
      dictGet, setStatus, setStatusError, hph, hsr, hA, hB, hC]
    rcases h1 : ps.B.rollback rB.data with v | v <;>
      rcases h2 : ps.A.rollback rA.data with w | w <;>
      simp [dictGet, setStatus, h1, h2]

/-- C1 witness: at the concrete prepared state with C's commit raising,
commit returns `False`, ends rolled back, and the trace shows commits
A, B, C then rollbacks B, A. -/
theorem commit_sequential_and_compensates_witness :
    (commit psCommitFailC0 stPrepared0).1 = .ok false ∧
    (commit psCommitFailC0 stPrepared0).2.1.phase = "rolled_back" ∧
    (commit psCommitFailC0 stPrepared0).2.1.staging_exists = false ∧
    (commit psCommitFailC0 stPrepared0).2.2 = [.commitCall "A" rA0.data,
      .commitCall "B" rB0.data, .commitCall "C" rC0.data,
      .rollbackCall "B" rB0.data, .rollbackCall "A" rA0.data] :=
  (commit_sequential_and_compensates psCommitFailC0 stPrepared0 rA0 rB0 rC0
    rfl rfl).2.2.2 "quota" rfl rfl rfl

/-- C7: calling `commit` on a transaction whose phase is not `'prepared'`
raises a `RuntimeError` and performs no stream commit: the state is
untouched and the trace is empty. -/
theorem commit_requires_prepared_phase (ps : Procs) (st : TransactionState)
    (h : st.phase ≠ "prepared") :
    commit ps st =
      (.error ("Cannot commit: transaction in phase \x27" ++ st.phase ++ "\x27"), st, []) := by
  simp [commit, h]

/-- C7 witness: committing a fresh (`'init'`) transaction raises. -/
theorem commit_requires_prepared_phase_witness :
    commit psOk0 txn0 =
      (.error "Cannot commit: transaction in phase \x27init\x27", txn0, []) :=
  commit_requires_prepared_phase psOk0 txn0 (by decide)

/-- C10: when the very first commit step (stream A) fails, rollback runs
with an empty committed list, so no processor rollback is called (the trace
holds the single A commit call and nothing else); the phase still ends at
`'rolled_back'` (not `'failed'`), commit returns `False`, and the staging
directory is cleaned up. -/
theorem commit_first_step_failure_rolls_back (ps : Procs) (st : TransactionState)
    (rA rB rC : StreamResult) (e : String)
    (hph : st.phase = "prepared")
    (hsr : st.stream_results = [("A", rA), ("B", rB), ("C", rC)])
    (hA : ps.A.commit rA.data = .error e) :
    (commit ps st).1 = .ok false ∧
    (commit ps st).2.1.phase = "rolled_back" ∧
    (commit ps st).2.1.staging_exists = false ∧
    (commit ps st).2.1.error = some ("Commit failed: " ++ e) ∧
    (commit ps st).2.2 = [.commitCall "A" rA.data] := by
  simp [commit, commitStream, commitFailure, rollback, rollbackStep, Procs.lookup,
    dictGet, setStatus, setStatusError, hph, hsr, hA]

/-- C10 witness: at the concrete prepared state with A's commit raising,
the trace is the lone A commit call and the phase is `'rolled_back'`. -/
theorem commit_first_step_failure_rolls_back_witness :
    (commit psCommitFailA0 stPrepared0).1 = .ok false ∧
    (commit psCommitFailA0 stPrepared0).2.1.phase = "rolled_back" ∧
    (commit psCommitFailA0 stPrepared0).2.1.staging_exists = false ∧
    (commit psCommitFailA0 stPrepared0).2.1.error = some "Commit failed: denied" ∧
    (commit psCommitFailA0 stPrepared0).2.2 = [.commitCall "A" rA0.data] :=
  commit_first_step_failure_rolls_back psCommitFailA0 stPrepared0 rA0 rB0 rC0
    "denied" rfl rfl rfl

/-- C2 counterexample: stream A's `prepare` returns a falsy (empty) dict
and B, C succeed; contrary to the claim, `prepare` returns `True`, the
phase becomes `'prepared'`, and the empty payload is recorded with status
`'prepared'` — a falsy processor result does not fail the prepare phase,
because `_prepare_stream` wraps every non-raising processor result into a
`True` return. -/
theorem prepare_falsy_payload_cex :
    (prepare psFalsy0 txn0).1 = true ∧
    (prepare psFalsy0 txn0).2.1.phase = "prepared" ∧
    dictGet (prepare psFalsy0 txn0).2.1.stream_results "A" =
      some ⟨"A", "prepared", [], none⟩ :=
  ⟨rfl, rfl, rfl⟩

/-- C2 as amended: if any of the three stream processors' `prepare`
raises, the whole prepare phase fails — the phase becomes `'failed'`, the
staging directory is cleaned up and `prepare` returns `False`; if none
raises (even when a processor returns a falsy payload), the phase becomes
`'prepared'`, each stream's staged output is recorded in
`stream_results[name].data` with status `'prepared'`, and `prepare`
returns `True`. -/
theorem prepare_exception_atomicity (ps : Procs) (st : TransactionState)
    (hst : st.stream_results = []) :
    (∀ e, (ps.A.prepare = .error e ∨ ps.B.prepare = .error e ∨ ps.C.prepare = .error e) →
      (prepare ps st).1 = false ∧
      (prepare ps st).2.1.phase = "failed" ∧
      (prepare ps st).2.1.staging_exists = false) ∧
    (∀ dA dB dC, ps.A.prepare = .ok dA → ps.B.prepare = .ok dB → ps.C.prepare = .ok dC →
      (prepare ps st).1 = true ∧
      (prepare ps st).2.1.phase = "prepared" ∧
      dictGet (prepare ps st).2.1.stream_results "A" = some ⟨"A", "prepared", dA, none⟩ ∧
      dictGet (prepare ps st).2.1.stream_results "B" = some ⟨"B", "prepared", dB, none⟩ ∧
      dictGet (prepare ps st).2.1.stream_results "C" = some ⟨"C", "prepared", dC, none⟩) := by
  constructor
  · exact fun e h => prepare_result_false_of_error ps st e hst h
  · intro dA dB dC hA hB hC
    simp [prepare_all_ok_eq ps st dA dB dC hst hA hB hC, dictGet]

/-- C2 witness: with stream A raising `"boom"`, prepare fails with phase
`'failed'` and staging cleaned up. -/
theorem prepare_exception_atomicity_witness :
    (prepare psPrepFail0 txn0).1 = false ∧
    (prepare psPrepFail0 txn0).2.1.phase = "failed" ∧
    (prepare psPrepFail0 txn0).2.1.staging_exists = false :=
  (prepare_exception_atomicity psPrepFail0 txn0 rfl).1 "boom" (Or.inl rfl)

/-- C9: the prepare fan-out never aborts early — whatever the outcomes,
all three stream preparations are called (the trace always holds exactly
the three `prepareCall` events); a `'failed'` `StreamResult` carrying the
stream's own error message is recorded for every raising stream, not only
the first; and the transaction's error message names exactly the failed
streams (the `failures` list, characterised in the last conjunct). -/
theorem prepare_fanout_runs_to_completion (ps : Procs) (st : TransactionState)
    (hst : st.stream_results = []) :
    (prepare ps st).2.2 = [.prepareCall "A", .prepareCall "B", .prepareCall "C"] ∧
    (∀ e, ps.A.prepare = .error e →
      dictGet (prepare ps st).2.1.stream_results "A" = some ⟨"A", "failed", [], some e⟩) ∧
    (∀ e, ps.B.prepare = .error e →
      dictGet (prepare ps st).2.1.stream_results "B" = some ⟨"B", "failed", [], some e⟩) ∧
    (∀ e, ps.C.prepare = .error e →
      dictGet (prepare ps st).2.1.stream_results "C" = some ⟨"C", "failed", [], some e⟩) ∧
    (prepFailures ps ≠ [] →
      (prepare ps st).2.1.error =
        some ("Streams " ++ String.intercalate ", " (prepFailures ps)
          ++ " failed during preparation")) ∧
    (∀ n, n ∈ prepFailures ps ↔
      ((n = "A" ∧ ∃ e, ps.A.prepare = .error e) ∨
       (n = "B" ∧ ∃ e, ps.B.prepare = .error e) ∨
       (n = "C" ∧ ∃ e, ps.C.prepare = .error e))) := by
  refine ⟨prepare_trace_always ps st, ?_, ?_, ?_, ?_, ?_⟩
  · intro e h
    cases hB : ps.B.prepare <;> cases hC : ps.C.prepare <;>
      simp_all [prepare, prepareStream, recordPrepareResult, dictGet, dictSet]
  · intro e h
    cases hA : ps.A.prepare <;> cases hC : ps.C.prepare <;>
      simp_all [prepare, prepareStream, recordPrepareResult, dictGet, dictSet]
  · intro e h
    cases hA : ps.A.prepare <;> cases hB : ps.B.prepare <;>
      simp_all [prepare, prepareStream, recordPrepareResult, dictGet, dictSet]
  · intro hne
    cases hA : ps.A.prepare <;> cases hB : ps.B.prepare <;> cases hC : ps.C.prepare <;>
      simp_all [prepare, prepareStream, recordPrepareResult, prepFailures, dictGet, dictSet]
  · intro n
    cases hA : ps.A.prepare <;> cases hB : ps.B.prepare <;> cases hC : ps.C.prepare <;>
      simp_all [prepFailures]

/-- C9 witness: with stream A raising, the trace still holds all three
prepare calls and A's failure record carries its own message. -/
theorem prepare_fanout_runs_to_completion_witness :
    (prepare psPrepFail0 txn0).2.2 =
      [.prepareCall "A", .prepareCall "B", .prepareCall "C"] ∧
    dictGet (prepare psPrepFail0 txn0).2.1.stream_results "A" =
      some ⟨"A", "failed", [], some "boom"⟩ :=
  ⟨(prepare_fanout_runs_to_completion psPrepFail0 txn0 rfl).1,
   (prepare_fanout_runs_to_completion psPrepFail0 txn0 rfl).2.1 "boom" rfl⟩

/-- C3: rollback over any list of committed streams (each with a processor
and a staged result) is best-effort: an exception from one stream's
rollback does not stop compensation — the trace contains one
`rollbackCall` per stream of the reversed list, each with the payload
recorded at prepare time, whatever the individual outcomes — and the phase
ends at `'rolled_back'` with staging cleaned up afterwards.  The embedding
of `rollback` is a total function into states and traces, so rollback never
propagates a stream's exception. -/
theorem rollback_best_effort (ps : Procs) (st : TransactionState)
    (committed : List String)
    (hp : ∀ n ∈ committed, (ps.lookup n).isSome)
    (hd : ∀ n ∈ committed, (dictGet st.stream_results n).isSome) :
    (rollback ps st (some committed)).1.phase = "rolled_back" ∧
    (rollback ps st (some committed)).1.staging_exists = false ∧
    (rollback ps st (some committed)).2 =
      committed.reverse.filterMap
        (fun n => (dictGet st.stream_results n).map
          (fun r => Event.rollbackCall n r.data)) := by
  refine ⟨rfl, rfl, ?_⟩
  show (committed.reverse.foldl (rollbackStep ps)
      ({ st with phase := "rolling_back" }, [])).2 = _
  rw [foldl_rollbackStep_trace ps committed.reverse { st with phase := "rolling_back" } []
    (fun n hn => hp n (List.mem_reverse.mp hn))
    (fun n hn => hd n (List.mem_reverse.mp hn))]
  rfl

/-- C3 witness: with A and B committed and B's rollback raising, both
rollbacks are still attempted, B before A, and the phase ends at
`'rolled_back'`. -/
theorem rollback_best_effort_witness :
    (rollback psRbFailB0 stCommitted2 (some ["A", "B"])).1.phase = "rolled_back" ∧
    (rollback psRbFailB0 stCommitted2 (some ["A", "B"])).1.staging_exists = false ∧
    (rollback psRbFailB0 stCommitted2 (some ["A", "B"])).2 =
      [Event.rollbackCall "B" dB0, Event.rollbackCall "A" dA0] :=
  rollback_best_effort psRbFailB0 stCommitted2 ["A", "B"]
    (by decide) (by decide)

/-- C4 counterexample: when prepare fails, `execute_transaction` returns
`False` with zero `save_state` calls, and when commit fails it returns
`False` with only the single post-prepare `save_state` call — contrary to
the claim, no checkpoint is persisted on the failure paths themselves. -/
theorem execute_transaction_missing_failure_checkpoints_cex :
    (execute_transaction [] txn0 psPrepFail0).1 = false ∧
    saveCount (execute_transaction [] txn0 psPrepFail0).2.2.2 = 0 ∧
    (execute_transaction [] txn0 psCommitFailC0).1 = false ∧
    saveCount (execute_transaction [] txn0 psCommitFailC0).2.2.2 = 1 :=
  ⟨rfl, rfl, rfl, rfl⟩

/-- C4 as amended: `execute_transaction` persists a checkpoint only after a
successful prepare and again after a successful commit.  When prepare
returns `False` it returns Failure without persisting any checkpoint; when
commit returns `False` it returns Failure without persisting a further
checkpoint (only the post-prepare one exists); on success exactly two
checkpoints are persisted. -/
theorem execute_transaction_checkpoint_policy (ps : Procs) (st : TransactionState)
    (completed : List String) (hst : st.stream_results = []) :
    (∀ e, (ps.A.prepare = .error e ∨ ps.B.prepare = .error e ∨ ps.C.prepare = .error e) →
      (execute_transaction completed st ps).1 = false ∧
      saveCount (execute_transaction completed st ps).2.2.2 = 0) ∧
    (∀ dA dB dC e, ps.A.prepare = .ok dA → ps.B.prepare = .ok dB → ps.C.prepare = .ok dC →
      ps.A.commit dA = .error e →
      (execute_transaction completed st ps).1 = false ∧
      saveCount (execute_transaction completed st ps).2.2.2 = 1) ∧
    (∀ dA dB dC e, ps.A.prepare = .ok dA → ps.B.prepare = .ok dB → ps.C.prepare = .ok dC →
      ps.A.commit dA = .ok () → ps.B.commit dB = .error e →
      (execute_transaction completed st ps).1 = false ∧
      saveCount (execute_transaction completed st ps).2.2.2 = 1) ∧
    (∀ dA dB dC e, ps.A.prepare = .ok dA → ps.B.prepare = .ok dB → ps.C.prepare = .ok dC →
      ps.A.commit dA = .ok () → ps.B.commit dB = .ok () → ps.C.commit dC = .error e →
      (execute_transaction completed st ps).1 = false ∧
      saveCount (execute_transaction completed st ps).2.2.2 = 1) ∧
    (∀ dA dB dC, ps.A.prepare = .ok dA → ps.B.prepare = .ok dB → ps.C.prepare = .ok dC →
      ps.A.commit dA = .ok () → ps.B.commit dB = .ok () → ps.C.commit dC = .ok () →
      (execute_transaction completed st ps).1 = true ∧
      saveCount (execute_transaction completed st ps).2.2.2 = 2) := by
  refine ⟨?_, ?_, ?_, ?_, ?_⟩
  · intro e h
    have hpf := prepare_result_false_of_error ps st e hst h
    simp [execute_transaction, hpf.1, prepare_trace_always, saveCount]
  · intro dA dB dC e hA hB hC hcA
    simp [execute_transaction, prepare_all_ok_eq ps st dA dB dC hst hA hB hC,
      commit, commitStream, commitFailure, rollback, rollbackStep, Procs.lookup,
      dictGet, setStatus, setStatusError, hcA, saveCount]
  · intro dA dB dC e hA hB hC hcA hcB
    simp only [execute_transaction, prepare_all_ok_eq ps st dA dB dC hst hA hB hC]
    rcases h1 : ps.A.rollback dA with v | v <;>
      simp [commit, commitStream, commitFailure, rollback, rollbackStep, Procs.lookup,
        dictGet, setStatus, setStatusError, hcA, hcB, h1, saveCount]
  · intro dA dB dC e hA hB hC hcA hcB hcC
    simp only [execute_transaction, prepare_all_ok_eq ps st dA dB dC hst hA hB hC]
    rcases h1 : ps.B.rollback dB with v | v <;>
      rcases h2 : ps.A.rollback dA with w | w <;>
      simp [commit, commitStream, commitFailure, rollback, rollbackStep, Procs.lookup,
        dictGet, setStatus, setStatusError, hcA, hcB, hcC, h1, h2, saveCount]
  · intro dA dB dC hA hB hC hcA hcB hcC
    simp [execute_transaction, prepare_all_ok_eq ps st dA dB dC hst hA hB hC,
      commit, commitStream, dictGet, setStatus, hcA, hcB, hcC, saveCount]

/-- C4 witness: a fully successful record persists exactly two
checkpoints. -/
theorem execute_transaction_checkpoint_policy_witness :
    (execute_transaction [] txn0 psOk0).1 = true ∧
    saveCount (execute_transaction [] txn0 psOk0).2.2.2 = 2 :=
  (execute_transaction_checkpoint_policy psOk0 txn0 [] rfl).2.2.2.2
    dA0 dB0 dC0 rfl rfl rfl rfl rfl rfl

/-- C5 counterexample: a record whose HTML fetch raises is counted as
`'fail'`, not `'skip'` (no transaction is constructed either way) —
contrary to the claim that an unreachable precursor yields Skip. -/
theorem process_pattern_fetch_exception_cex :
    process_pattern [] patUrl0 (.error "Name or service not known") idHash psOk0
      = ("fail", [], none, []) :=
  rfl

/-- C5 as amended: a missing or empty content URL and empty fetched
content yield Skip; an HTML fetch that raises yields Failure; in every one
of these input-error cases no transaction is constructed and no stream
processor is touched (the trace is empty). -/
theorem process_pattern_input_errors (completed : List String) (pat : Pat)
    (f : Except String String) (hashFn : String → String) (ps : Procs)
    (hnc : pat.id ∉ completed) :
    (pat.page_url = none ∨ pat.page_url = some "" →
      process_pattern completed pat f hashFn ps = ("skip", completed, none, [])) ∧
    (∀ u e, pat.page_url = some u → u ≠ "" → f = .error e →
      process_pattern completed pat f hashFn ps = ("fail", completed, none, [])) ∧
    (∀ u, pat.page_url = some u → u ≠ "" → f = .ok "" →
      process_pattern completed pat f hashFn ps = ("skip", completed, none, [])) := by
  refine ⟨?_, ?_, ?_⟩
  · rintro (h | h) <;> simp [process_pattern, hnc, h]
  · intro u e hu hne hf
    simp [process_pattern, hnc, hu, hne, hf]
  · intro u hu hne hf
    simp [process_pattern, hnc, hu, hne, hf]

/-- C5 witness: a record with no `page_url` is skipped with no transaction
and no processor call. -/
theorem process_pattern_input_errors_witness :
    process_pattern [] patNoUrl0 (.ok "<html>x</html>") idHash psOk0
      = ("skip", [], none, []) :=
  (process_pattern_input_errors [] patNoUrl0 (.ok "<html>x</html>") idHash psOk0
    (by decide)).1 (Or.inl rfl)

/-- C6: after the startup checkpoint scan, an id is in the completed set
iff some readable checkpoint file records it with phase `'committed'`
(unreadable files and files without a `pattern_id` are skipped); and for a
record whose id is in the completed set, `process_pattern` returns Skip
with no transaction constructed and no processor touched. -/
theorem completed_set_iff_committed (files : List (Option CheckpointState))
    (completed : List String) (pat : Pat) (f : Except String String)
    (hashFn : String → String) (ps : Procs) :
    (∀ pid, pid ∈ loadCompleted files ↔
      ∃ cs : CheckpointState,
        some cs ∈ files ∧ cs.phase = some "committed" ∧ cs.pattern_id = some pid) ∧
    (pat.id ∈ completed →
      process_pattern completed pat f hashFn ps = ("skip", completed, none, [])) := by
  constructor
  · intro pid
    rw [loadCompleted, mem_foldl_loadCompletedStep]
    simp
  · intro h
    simp [process_pattern, h]

/-- C6 witness: in the concrete checkpoint directory only `"p1"` is
completed, and a record with that id is skipped without any processor
call. -/
theorem completed_set_iff_committed_witness :
    ("p1" ∈ loadCompleted files0 ↔
      ∃ cs : CheckpointState,
        some cs ∈ files0 ∧ cs.phase = some "committed" ∧ cs.pattern_id = some "p1") ∧
    process_pattern ["p1"] ⟨"p1", "Pattern One", some "https://sp.example/p1", none⟩
      (.ok "<html>x</html>") idHash psOk0 = ("skip", ["p1"], none, []) :=
  ⟨(completed_set_iff_committed files0 ["p1"]
      ⟨"p1", "Pattern One", some "https://sp.example/p1", none⟩
      (.ok "<html>x</html>") idHash psOk0).1 "p1",
   (completed_set_iff_committed files0 ["p1"]
      ⟨"p1", "Pattern One", some "https://sp.example/p1", none⟩
      (.ok "<html>x</html>") idHash psOk0).2 (by decide)⟩

/-- C8: the batch concurrency limit is read from the environment with
default 4, and in every reachable scheduler state at most `n` tasks are
simultaneously inside their prepare/commit window — each task holds one
semaphore slot for its whole window and releases it only on its terminal
outcome (the only transitions of `SchedStep`). -/
theorem bounded_concurrency (n m : Nat) :
    ingestConcurrency none = some 4 ∧
    (∀ env s, ingestConcurrency env = some n → SchedReachable n m s →
      countInWindow s.tasks ≤ n) := by
  refine ⟨rfl, fun env s _ h => ?_⟩
  have := sched_invariant n m s h
  omega

/-- C8 witness: with limit 1 and 2 tasks, after one task acquires the slot
the window count is bounded by 1. -/
theorem bounded_concurrency_witness :
    ingestConcurrency none = some 4 ∧
    countInWindow ((List.replicate 2 TaskPhase.notStarted).set 0 TaskPhase.inWindow) ≤ 1 :=
  ⟨(bounded_concurrency 1 2).1,
   (bounded_concurrency 1 2).2 (some "1")
     { sem := 0, tasks := (List.replicate 2 TaskPhase.notStarted).set 0 TaskPhase.inWindow }
     rfl
     (SchedReachable.step SchedReachable.init
       (SchedStep.acquire (initSched 1 2) 0 rfl (by decide)))⟩

end Engen
